import Mathlib

/-!
Verification development for the Financify application (`app.py`).

The numeric values of the program (Python floats) are modelled as rationals,
Python dicts keyed by category as insertion-ordered association lists with
last-write-wins updates, and the generative-AI oracle as an abstract function
supplied as a parameter.  Fallible steps (JSON parsing, oracle calls) are
modelled with `Option` / `Except`.
-/

/-- An expense row as stored in `st.session_state.expense_entries`:
a dict with keys `category` and `amount`. -/
structure ExpenseEntry where
  category : String
  amount : ℚ
deriving DecidableEq, Repr

/-- Python dict assignment `d[k] = v`: if the key is present its value is
replaced in place (keeping the key position), otherwise the pair is appended
(insertion order). -/
def dictInsert (d : List (String × ℚ)) (k : String) (v : ℚ) : List (String × ℚ) :=
  if k ∈ d.map Prod.fst then d.map (fun p => if p.1 = k then (k, v) else p)
  else d ++ [(k, v)]

/-- The dict comprehension at `app.py:279` and `app.py:395`, which maps each
entry category to its amount (duplicate categories collapse, last write wins). -/
def expensesData (entries : List ExpenseEntry) : List (String × ℚ) :=
  entries.foldl (fun d e => dictInsert d e.category e.amount) []

/-- `total_expenses = sum(expenses_data.values())` (`app.py:280`, `app.py:396`). -/
def totalExpenses (entries : List ExpenseEntry) : ℚ :=
  ((expensesData entries).map Prod.snd).sum

/-- `balance = income - total_expenses` (`app.py:281`, `app.py:397`). -/
def balance (income : ℚ) (entries : List ExpenseEntry) : ℚ :=
  income - totalExpenses entries

/-- A concrete list with a duplicated category: the dict comprehension keeps
only the last amount recorded under "Food". -/
def dupEntries : List ExpenseEntry := [⟨"Food", 100⟩, ⟨"Food", 200⟩]

/-- Python `int(q)`: truncation toward zero. -/
def pyInt (q : ℚ) : ℤ := if q < 0 then ⌈q⌉ else ⌊q⌋

/-- Home page savings percentage (`app.py:296-297`):
`savings_pct = int((balance / income) * 100) if income > 0 else 0` followed by
`savings_pct = max(0, savings_pct)`. -/
def savings_pct_home (income : ℚ) (entries : List ExpenseEntry) : ℤ :=
  max 0 (if 0 < income then pyInt (balance income entries / income * 100) else 0)

/-- Insights page savings rate (`app.py:398`):
`savings_rate = (balance / income * 100) if income > 0 else 0`. -/
def savings_rate (income : ℚ) (entries : List ExpenseEntry) : ℚ :=
  if 0 < income then balance income entries / income * 100 else 0

/-- A one-entry list spending more than the income 100 used with it. -/
def overspendEntries : List ExpenseEntry := [⟨"Rent", 200⟩]

/-- The risk-profile conditional at `app.py:403-408`:
`if savings_rate < 10` then Aggressive, `elif 10 <= savings_rate < 25` then
Balanced, `else` Conservative (only the profile label is modelled; colour,
marker position and description ride along with it in the source). -/
def riskBucket (rate : ℚ) : String :=
  if rate < 10 then "Aggressive"
  else if 10 ≤ rate ∧ rate < 25 then "Balanced"
  else "Conservative"

/-- The comparison used by the `sorted(...)` call at `app.py:449` with key
`item[1]` and `reverse=True`: descending by amount. -/
def byAmountDesc (a b : String × ℚ) : Prop := b.2 ≤ a.2

instance : DecidableRel byAmountDesc :=
  fun a b => inferInstanceAs (Decidable (b.2 ≤ a.2))

instance : IsTotal (String × ℚ) byAmountDesc :=
  ⟨fun a b => le_total b.2 a.2⟩

instance : IsTrans (String × ℚ) byAmountDesc :=
  ⟨fun _ _ _ hab hbc => le_trans hbc hab⟩

/-- `sorted_expenses` at `app.py:449`: Python sort is stable, which insertion
sort with the non-strict descending comparison models exactly. -/
def sortedExpenses (entries : List ExpenseEntry) : List (String × ℚ) :=
  List.insertionSort byAmountDesc (expensesData entries)

/-- `labels = [item[0] for item in sorted_expenses]` (`app.py:450`), the
category legend order shared by the pie chart and the top-spending list. -/
def displayLabels (entries : List ExpenseEntry) : List String :=
  (sortedExpenses entries).map Prod.fst

/-- Modelled from the claim text for comparison: a stable descending sort of
the raw expense-entry list itself (not of the category dict). -/
def specStableSortDisplay (entries : List ExpenseEntry) : List (String × ℚ) :=
  List.insertionSort byAmountDesc (entries.map fun e => (e.category, e.amount))

/-- The spec example: Rent 15000, Food 5000, Misc 5000 (a tie on 5000). -/
def exampleEntries : List ExpenseEntry :=
  [⟨"Rent", 15000⟩, ⟨"Food", 5000⟩, ⟨"Misc", 5000⟩]

/-- A list in which the category "A" occurs twice with amount 5. -/
def dupDisplayEntries : List ExpenseEntry := [⟨"A", 5⟩, ⟨"B", 7⟩, ⟨"A", 5⟩]

/-- One item of the `expenses` array of the JSON returned by the vision oracle;
either field may be absent (`item.get` / direct subscript in the source). -/
structure RawEntry where
  category : Option String
  amount : Option ℚ
deriving DecidableEq

/-- A successfully JSON-parsed oracle response, read with
`data.get("income", 0.0)` and `data.get("expenses", [])` (`app.py:151-152`). -/
structure ParsedDoc where
  income : Option ℚ
  expenses : List RawEntry

/-- The comprehension guard at `app.py:157`: the category must be present and
non-empty (Python truthiness of `item.get` ) and the amount positive. -/
def keepEntry (it : RawEntry) : Bool :=
  (match it.category with
   | none => false
   | some c => decide (c ≠ "")) && decide ((0:ℚ) < it.amount.getD 0)

/-- The comprehension at `app.py:157` building `expense_entries` from the
parsed `expenses` list: filter by `keepEntry`, then read the fields (both
present whenever the guard passed, so the defaults are never reached). -/
def extractEntries (l : List RawEntry) : List ExpenseEntry :=
  (l.filter keepEntry).map fun it => ⟨it.category.getD "", it.amount.getD 0⟩

/-- The session fields written by `analyze_document_with_vision`
(`app.py:154-158`) and read back by the dashboard (`app.py:278-279`), the
insights page (`app.py:394-395`) and the advisor (`app.py:368-369`). -/
structure SessionState where
  income : ℚ
  income_text : String
  expense_entries : List ExpenseEntry

/-- Outcome reported to the user by the document-analysis flow: the success
banner at `app.py:160` or the retry error at `app.py:164`. -/
inductive ExtractOutcome where
  | success
  | parseError
deriving DecidableEq

/-- The fence stripping at `app.py:148`: strip whitespace, then delete the
substrings "```json" and "```". -/
def stripFences (t : String) : String :=
  (t.trim.replace "```json" "").replace "```" ""

/-- `analyze_document_with_vision` (`app.py:135-166`), with the composition of
the oracle call and `json.loads` abstracted as `jsonParse` applied to the
fence-stripped response text.  A parse failure is the caught
`json.JSONDecodeError` branch: the session is returned untouched together with
the retry message; on success the three session fields are overwritten. -/
def analyze_document_with_vision (jsonParse : String → Option ParsedDoc)
    (respText : String) (s : SessionState) : SessionState × ExtractOutcome :=
  match jsonParse (stripFences respText) with
  | none => (s, ExtractOutcome.parseError)
  | some data =>
      ({ income := data.income.getD 0,
         income_text := toString (data.income.getD 0),
         expense_entries := extractEntries data.expenses }, ExtractOutcome.success)

/-- What the Home dashboard computes from the session (`app.py:278-281`). -/
def home_total_expenses (s : SessionState) : ℚ := totalExpenses s.expense_entries

/-- `balance = income - total_expenses` as read by the Home page. -/
def home_balance (s : SessionState) : ℚ := s.income - home_total_expenses s

/-- A fresh session: income 0, no expenses. -/
def s0 : SessionState := ⟨0, "0", []⟩

/-- A session that already holds committed data before an extraction runs. -/
def s1 : SessionState := ⟨10, "10", [⟨"Rent", 1⟩]⟩

/-- The spec example response: income 50000 with entries Rent/15000, blank/500
and Gift/0. -/
def exDoc : ParsedDoc :=
  ⟨some 50000, [⟨some "Rent", some 15000⟩, ⟨some "", some 500⟩, ⟨some "Gift", some 0⟩]⟩

/-- The RBI guideline bullet list embedded at `app.py:46-59`. -/
def RBI_KNOWLEDGE_BASE : String :=
  "\n**RBI Financial Planning Guidelines:**\n- The first and most important step in financial planning is to know your money well (income, expenses, assets, liabilities).\n- The three key components of money management are Record Keeping, Budgeting, and Saving.\n- A budget is a plan you commit to follow to prudently manage your money.\n- Saving is putting aside money for future use; it should be done first and regularly.\n- Common financial mistakes include spending frivolously, mindless use of credit cards, and investing based on half-knowledge.\n- Good credit is a lifelong asset built by paying back debts on time and in full.\n- The \x27Rule of 72\x27 is a simple trick to find out how long it will take to double your money.\n- Investment decisions should be based on your risk profile, needs, and priorities, not on what a friend does.\n- You should not invest money that is not yours and investable.\n- An emergency fund should cover at least three months of living expenses.\n- Insurance is a way to transfer risk and provide peace of mind in case of disasters.\n"

/-- The advisor persona prompt at `app.py:61-73` (an f-string embedding the
knowledge base). -/
def ADVISOR_SYSTEM_PROMPT : String :=
  "\nYou are a conversational AI financial advisor named \x27Financify,\x27 which means \x27Easy Wealth Companion.\x27 Your persona is that of a friendly, knowledgeable, and trustworthy financial expert for young professionals in India. Your goal is to provide simple, actionable, and culturally relevant financial guidance. You are an expert in personal finance, and your advice is based on the following key guidelines:\n"
    ++ RBI_KNOWLEDGE_BASE
    ++ "\n\nYour tasks are:\n1.  **Analyze User Data:** You will be provided with a user\x27s monthly financial data in text format.\n2.  **Provide a Budget Summary:** Give a clear, concise summary of their financial status, including total income, total expenses, and the remaining balance.\n3.  **Give Actionable Advice:** Offer 2-3 specific, practical suggestions to improve their financial health. The advice must be based on the provided RBI guidelines.\n4.  **Maintain a Trustworthy Tone:** The response must be polite, easy to read, and free of complex jargon. Always include a disclaimer at the end.\n5.  **Roleplay:** If the user asks about a big purchase, respond as an advisor helping them analyze the decision based on their provided data, referencing your knowledge base.\n\n**Disclaimer:** This advice is for educational purposes only and is not a substitute for professional financial consultation.\n"

/-- The prompt assembled at `app.py:117`. -/
def full_prompt (user_data_text user_query : String) : String :=
  ADVISOR_SYSTEM_PROMPT ++ "\n\nUser\x27s financial data:\n" ++ user_data_text
    ++ "\n\nUser\x27s Question: " ++ user_query

/-- `get_financial_advice` (`app.py:115-123`): the oracle call sits in a
try/except whose handler returns the string `An error occurred: ...` instead of
propagating the exception. -/
def get_financial_advice (oracle : String → Except String String)
    (user_data_text user_query : String) : String :=
  match oracle (full_prompt user_data_text user_query) with
  | Except.ok t => t
  | Except.error e => "An error occurred: " ++ e

/-- One message of `st.session_state.chat_history`. -/
structure ChatMsg where
  role : String
  content : String
deriving DecidableEq

/-- The `", ".join(...)` of category-amount pairs at `app.py:368`. -/
def expenses_text (entries : List ExpenseEntry) : String :=
  String.intercalate ", " (entries.map fun e => e.category ++ ": " ++ toString e.amount)

/-- The `user_data` string built at `app.py:369` from the session ledger. -/
def advisor_user_data (s : SessionState) : String :=
  "Income: " ++ toString s.income ++ "\nExpenses: " ++ expenses_text s.expense_entries

/-- The response half of a user turn on the advisor page (`app.py:364-373`):
take the latest message, call `get_financial_advice` on it together with the
ledger snapshot, and append the result as an assistant message. -/
def page_advisor_step (oracle : String → Except String String)
    (s : SessionState) (chat_history : List ChatMsg) : List ChatMsg :=
  match chat_history.getLast? with
  | none => chat_history
  | some last =>
      chat_history
        ++ [⟨"assistant", get_financial_advice oracle (advisor_user_data s) last.content⟩]

/-- One quiz question of a Fin-Bites lesson (`app.py:647-666`). -/
structure QuizQuestion where
  question : String
  options : List String
  answer : String
deriving DecidableEq

/-- The per-attempt quiz state: `current_question` and `user_answers`
(`app.py:676-679`), plus the per-question radio selection `user_choice`
(`app.py:755`) that gates the Submit button. -/
structure QuizAttempt where
  current_question : ℕ
  user_answers : ℕ → Option String
  radio : ℕ → Option String

/-- State on opening a quiz: index 0, empty answers (`app.py:722-724`). -/
def quizInit : QuizAttempt := ⟨0, fun _ => none, fun _ => none⟩

/-- Choosing an option in the radio widget of the current question
(`app.py:755`; the widget only exists while a question page is shown). -/
def selectOption (qs : List QuizQuestion) (choice : String) (s : QuizAttempt) : QuizAttempt :=
  if s.current_question < qs.length then
    ⟨s.current_question, s.user_answers,
      fun i => if i = s.current_question then some choice else s.radio i⟩
  else s

/-- The Submit-and-Next button (`app.py:765-767`): disabled while `user_choice
is None`; when pressed it records the choice under the current index and
advances the index by one. -/
def nextQuestion (qs : List QuizQuestion) (s : QuizAttempt) : QuizAttempt :=
  if s.current_question < qs.length then
    match s.radio s.current_question with
    | none => s
    | some choice =>
        ⟨s.current_question + 1,
          fun i => if i = s.current_question then some choice else s.user_answers i,
          s.radio⟩
  else s

/-- The Previous button (`app.py:761-763`): disabled at index 0; decrements the
index and touches nothing else. -/
def prevQuestion (qs : List QuizQuestion) (s : QuizAttempt) : QuizAttempt :=
  if s.current_question < qs.length ∧ 0 < s.current_question then
    ⟨s.current_question - 1, s.user_answers, s.radio⟩
  else s

/-- The score computed at `app.py:743`: the number of enumerated questions
whose recorded answer equals the correct answer string. -/
def score (qs : List QuizQuestion) (answers : ℕ → Option String) : ℕ :=
  (qs.enum.filter fun p => decide (answers p.1 = some p.2.answer)).length

/-- What the quiz dialog shows (`app.py:742-754`): the completion banner with
the score once the index has reached the question count, otherwise the current
question. -/
inductive QuizView where
  | completed (sc total : ℕ)
  | question (idx : ℕ)
deriving DecidableEq

/-- The branch at `app.py:742`: completion exactly when
`current_question >= len(quiz_questions)`. -/
def quizView (qs : List QuizQuestion) (s : QuizAttempt) : QuizView :=
  if qs.length ≤ s.current_question then
    QuizView.completed (score qs s.user_answers) qs.length
  else QuizView.question s.current_question

/-- A two-question quiz with correct answers A and B, as in the spec example. -/
def exQuiz : List QuizQuestion :=
  [⟨"Q1", ["A", "B", "C"], "A"⟩, ⟨"Q2", ["A", "B", "C"], "B"⟩]

/-- Recorded answers of the spec example: index 0 answered A, index 1 answered C. -/
def exAnswers : ℕ → Option String :=
  fun i => if i = 0 then some "A" else if i = 1 then some "C" else none

/-- Attempt states reachable from a fresh quiz via the three transitions,
together with the furthest question index reached along the way (`nxt` is the
only transition that can increase the index). -/
inductive Reach (qs : List QuizQuestion) : QuizAttempt → ℕ → Prop where
  | init : Reach qs quizInit 0
  | sel {s : QuizAttempt} {f : ℕ} (c : String) :
      Reach qs s f → Reach qs (selectOption qs c s) f
  | nxt {s : QuizAttempt} {f : ℕ} :
      Reach qs s f → Reach qs (nextQuestion qs s) (max f (nextQuestion qs s).current_question)
  | back {s : QuizAttempt} {f : ℕ} :
      Reach qs s f → Reach qs (prevQuestion qs s) f

-- Helper lemmas ----------------------------------------------------------------

lemma dictInsert_not_mem (d : List (String × ℚ)) (k : String) (v : ℚ)
    (h : k ∉ d.map Prod.fst) :
    dictInsert d k v = d ++ [(k, v)] := by
  simp only [dictInsert, if_neg h]

lemma expensesData_foldl (entries : List ExpenseEntry) (d : List (String × ℚ))
    (hd : ∀ e ∈ entries, e.category ∉ d.map Prod.fst)
    (hnd : (entries.map ExpenseEntry.category).Nodup) :
    entries.foldl (fun d e => dictInsert d e.category e.amount) d
      = d ++ entries.map (fun e => (e.category, e.amount)) := by
  induction entries generalizing d with
  | nil => simp
  | cons e es ih =>
    have hmem : e.category ∉ d.map Prod.fst := hd e (List.mem_cons_self e es)
    rw [List.foldl_cons, dictInsert_not_mem d _ _ hmem]
    have hnd' : (es.map ExpenseEntry.category).Nodup := (List.nodup_cons.mp hnd).2
    have hhd : e.category ∉ es.map ExpenseEntry.category := (List.nodup_cons.mp hnd).1
    rw [ih (d ++ [(e.category, e.amount)]) ?_ hnd']
    · simp
    · intro x hx
      have hxd : x.category ∉ d.map Prod.fst := hd x (List.mem_cons_of_mem e hx)
      have hxe : x.category ≠ e.category := by
        intro hc
        exact hhd (hc ▸ List.mem_map_of_mem ExpenseEntry.category hx)
      simp [hxd, hxe]

/-- With pairwise-distinct categories the category dict is just the list of
(category, amount) pairs in order. -/
lemma expensesData_eq_map (entries : List ExpenseEntry)
    (hnd : (entries.map ExpenseEntry.category).Nodup) :
    expensesData entries = entries.map (fun e => (e.category, e.amount)) := by
  simpa using expensesData_foldl entries [] (by simp) hnd

lemma totalExpenses_eq_sum (entries : List ExpenseEntry)
    (hnd : (entries.map ExpenseEntry.category).Nodup) :
    totalExpenses entries = (entries.map ExpenseEntry.amount).sum := by
  unfold totalExpenses
  rw [expensesData_eq_map entries hnd, List.map_map]
  rfl

lemma totalExpenses_single (c : String) (a : ℚ) : totalExpenses [⟨c, a⟩] = a := by
  simp [totalExpenses, expensesData, dictInsert]

lemma totalExpenses_overspend : totalExpenses overspendEntries = 200 :=
  totalExpenses_single "Rent" 200

lemma filter_orderedInsert (v : ℚ) (x : String × ℚ) (t : List (String × ℚ)) :
    (List.orderedInsert byAmountDesc x t).filter (fun q => decide (q.2 = v)) =
      if x.2 = v then x :: t.filter (fun q => decide (q.2 = v))
      else t.filter (fun q => decide (q.2 = v)) := by
  induction t with
  | nil =>
    by_cases hx : x.2 = v <;> simp [List.orderedInsert, hx]
  | cons y t ih =>
    simp only [List.orderedInsert]
    by_cases hr : byAmountDesc x y
    · rw [if_pos hr]
      by_cases hx : x.2 = v <;> simp [List.filter_cons, hx]
    · rw [if_neg hr]
      by_cases hx : x.2 = v
      · have hy : ¬ (y.2 = v) := by
          intro hyv
          exact hr (le_of_eq (by rw [hyv, hx]))
        simp [List.filter_cons, hy, hx, ih]
      · simp [List.filter_cons, hx, ih]

/-- Stability of the display sort: for each amount v, the elements carrying v
appear in the sorted list in exactly their original relative order. -/
lemma insertionSort_filter_amount (v : ℚ) (l : List (String × ℚ)) :
    (List.insertionSort byAmountDesc l).filter (fun q => decide (q.2 = v)) =
      l.filter (fun q => decide (q.2 = v)) := by
  induction l with
  | nil => rfl
  | cons x l ih =>
    simp only [List.insertionSort]
    rw [filter_orderedInsert]
    by_cases hx : x.2 = v
    · rw [if_pos hx, ih]
      simp [List.filter_cons, hx]
    · rw [if_neg hx, ih]
      simp [List.filter_cons, hx]

lemma selectOption_fields (qs : List QuizQuestion) (c : String) (s : QuizAttempt) :
    (selectOption qs c s).current_question = s.current_question ∧
    (selectOption qs c s).user_answers = s.user_answers := by
  unfold selectOption
  split <;> exact ⟨rfl, rfl⟩

lemma prevQuestion_fields (qs : List QuizQuestion) (s : QuizAttempt) :
    (prevQuestion qs s).current_question ≤ s.current_question ∧
    (prevQuestion qs s).user_answers = s.user_answers := by
  unfold prevQuestion
  split
  · exact ⟨Nat.sub_le _ _, rfl⟩
  · exact ⟨le_refl _, rfl⟩

lemma nextQuestion_cases (qs : List QuizQuestion) (s : QuizAttempt) :
    nextQuestion qs s = s ∨
    (s.current_question < qs.length ∧ ∃ c, s.radio s.current_question = some c ∧
      nextQuestion qs s = ⟨s.current_question + 1,
        fun i => if i = s.current_question then some c else s.user_answers i, s.radio⟩) := by
  unfold nextQuestion
  split
  · rename_i hlt
    cases hr : s.radio s.current_question with
    | none => exact Or.inl rfl
    | some c => exact Or.inr ⟨hlt, c, rfl, rfl⟩
  · exact Or.inl rfl

/-- The invariant behind C10: along every reachable trace the current index
never exceeds the furthest index reached, and every index strictly below the
furthest one carries a recorded answer. -/
lemma reach_inv {qs : List QuizQuestion} {s : QuizAttempt} {f : ℕ}
    (h : Reach qs s f) :
    s.current_question ≤ f ∧ ∀ i, i < f → s.user_answers i ≠ none := by
  induction h with
  | init => exact ⟨le_refl 0, fun i hi => absurd hi (Nat.not_lt_zero i)⟩
  | @sel t g c hr ih =>
    obtain ⟨h1, h2⟩ := ih
    obtain ⟨hc, ha⟩ := selectOption_fields qs c t
    rw [hc, ha]
    exact ⟨h1, h2⟩
  | @nxt t g hr ih =>
    obtain ⟨h1, h2⟩ := ih
    rcases nextQuestion_cases qs t with he | ⟨hlt, c, _, he⟩
    · rw [he]
      refine ⟨le_max_right _ _, fun i hi => ?_⟩
      rw [max_eq_left h1] at hi
      exact h2 i hi
    · rw [he]
      refine ⟨le_max_right _ _, fun i hi => ?_⟩
      replace hi : i < max g (t.current_question + 1) := hi
      show (if i = t.current_question then some c else t.user_answers i) ≠ none
      by_cases hic : i = t.current_question
      · simp [hic]
      · simp only [if_neg hic]
        apply h2
        rcases lt_max_iff.mp hi with hcase | hcase
        · exact hcase
        · have hle : i ≤ t.current_question := Nat.lt_succ_iff.mp hcase
          exact lt_of_lt_of_le (lt_of_le_of_ne hle hic) h1
  | @back t g hr ih =>
    obtain ⟨h1, h2⟩ := ih
    obtain ⟨hc, ha⟩ := prevQuestion_fields qs t
    rw [ha]
    exact ⟨le_trans hc h1, h2⟩

-- C1 ---------------------------------------------------------------------------

/-- C1: For every income ≥ 0 and every expense-entry list whose amounts are all
> 0, the displayed derived metrics satisfy totalExpenses = sum of the amounts of
the list and balance = income - totalExpenses exactly (in particular this holds
when two entries share the same category string).  FALSE as stated: the displayed
total is the sum of the category dict values, and the dict comprehension collapses
duplicate categories last-write-wins, so `[("Food",100),("Food",200)]` (amounts
all > 0, income 50 ≥ 0) displays totalExpenses 200, not 300. -/
theorem C1_counterexample :
    (0:ℚ) ≤ 50 ∧ (0:ℚ) < 100 ∧ (0:ℚ) < 200 ∧
    totalExpenses dupEntries = 200 ∧
    totalExpenses dupEntries ≠ (dupEntries.map ExpenseEntry.amount).sum := by
  have h1 : totalExpenses dupEntries = 200 := by
    norm_num [totalExpenses, expensesData, dictInsert, dupEntries]
  have h2 : (dupEntries.map ExpenseEntry.amount).sum = 300 := by
    norm_num [dupEntries]
  exact ⟨by norm_num, by norm_num, by norm_num, h1, by rw [h1, h2]; norm_num⟩

/-- C1 (amended): For every income ≥ 0 and every expense-entry list whose
amounts are all > 0 and whose category strings are pairwise distinct, the
displayed derived metrics satisfy totalExpenses = sum of the amounts of the list
and balance = income - totalExpenses exactly; when two entries share a category
the dict groups them and only the last amount per category is counted. -/
theorem C1_amended (income : ℚ) (entries : List ExpenseEntry)
    (hinc : 0 ≤ income) (hpos : ∀ e ∈ entries, 0 < e.amount)
    (hnd : (entries.map ExpenseEntry.category).Nodup) :
    totalExpenses entries = (entries.map ExpenseEntry.amount).sum ∧
    balance income entries = income - totalExpenses entries :=
  ⟨totalExpenses_eq_sum entries hnd, rfl⟩

/-- Witness for `C1_amended` at income 50000 and entries Rent 15000, Food 5000. -/
theorem C1_witness :
    totalExpenses [⟨"Rent", 15000⟩, ⟨"Food", 5000⟩]
        = ([⟨"Rent", 15000⟩, ⟨"Food", 5000⟩].map ExpenseEntry.amount).sum ∧
    balance 50000 [⟨"Rent", 15000⟩, ⟨"Food", 5000⟩]
        = 50000 - totalExpenses [⟨"Rent", 15000⟩, ⟨"Food", 5000⟩] :=
  C1_amended 50000 [⟨"Rent", 15000⟩, ⟨"Food", 5000⟩] (by norm_num)
    (by intro e he
        rcases List.mem_cons.mp he with h | h
        · rw [h]; norm_num
        · rcases List.mem_cons.mp h with h2 | h2
          · rw [h2]; norm_num
          · exact absurd h2 (List.not_mem_nil e))
    (by decide)

-- C2 ---------------------------------------------------------------------------

/-- C2: The savings percentage is computed as balance/income*100 and is clamped
to ≥ 0 only in the income = 0 case; for every income > 0 it is not clamped, so a
negative balance yields a negative savings percentage.  FALSE as stated for the
Home page figure: `app.py:297` applies `max(0, savings_pct)` unconditionally, so
with income 100 and a single expense of 200 (balance -100 < 0) the Home page
shows 0, not a negative percentage. -/
theorem C2_counterexample :
    (0:ℚ) < 100 ∧ balance 100 overspendEntries < 0 ∧
    savings_pct_home 100 overspendEntries = 0 ∧
    ¬ savings_pct_home 100 overspendEntries < 0 := by
  have hb : balance 100 overspendEntries = -100 := by
    rw [balance, totalExpenses_overspend]; norm_num
  have hq : balance 100 overspendEntries / 100 * 100 = -100 := by
    rw [hb]; norm_num
  have hp : savings_pct_home 100 overspendEntries = 0 := by
    rw [savings_pct_home, if_pos (by norm_num : (0:ℚ) < 100), hq]
    have hcast : ((-100:ℚ)) = ((-100 : ℤ) : ℚ) := by norm_num
    have : pyInt (-100) = -100 := by
      rw [pyInt, if_pos (by norm_num : (-100:ℚ) < 0), hcast, Int.ceil_intCast]
    rw [this]
    norm_num
  exact ⟨by norm_num, by rw [hb]; norm_num, hp, by rw [hp]; norm_num⟩

/-- C2 (amended): The Insights page savings rate is balance/income*100 with 0
substituted only when income = 0, and is not clamped for income > 0, so there a
negative balance yields a negative rate; the Home page savings percentage,
however, applies max(0, ·) unconditionally, so it is ≥ 0 for every income and in
particular shows 0 (not a negative value) when the balance is negative. -/
theorem C2_amended (income : ℚ) (entries : List ExpenseEntry) :
    (0 < income → savings_rate income entries = balance income entries / income * 100) ∧
    (0 < income → balance income entries < 0 → savings_rate income entries < 0) ∧
    (income = 0 → savings_rate income entries = 0) ∧
    0 ≤ savings_pct_home income entries ∧
    (0 < income → balance income entries < 0 → savings_pct_home income entries = 0) := by
  refine ⟨fun h => by rw [savings_rate, if_pos h], fun h hb => ?_, fun h => ?_, ?_, fun h hb => ?_⟩
  · rw [savings_rate, if_pos h]
    have : balance income entries / income < 0 := div_neg_of_neg_of_pos hb h
    exact mul_neg_of_neg_of_pos this (by norm_num)
  · rw [savings_rate, if_neg (by rw [h]; exact lt_irrefl 0)]
  · exact le_max_left 0 _
  · have hq : balance income entries / income * 100 < 0 :=
      mul_neg_of_neg_of_pos (div_neg_of_neg_of_pos hb h) (by norm_num)
    have hceil : pyInt (balance income entries / income * 100) ≤ 0 := by
      rw [pyInt, if_pos hq]
      exact Int.ceil_le.mpr (by exact_mod_cast hq.le)
    rw [savings_pct_home, if_pos h]
    exact max_eq_left hceil

/-- Witness for `C2_amended` at income 100 with a single expense of 200. -/
theorem C2_witness :
    savings_rate 100 overspendEntries = balance 100 overspendEntries / 100 * 100 ∧
    savings_rate 100 overspendEntries < 0 ∧
    savings_rate 0 overspendEntries = 0 ∧
    savings_pct_home 100 overspendEntries = 0 := by
  have hb : balance 100 overspendEntries < 0 := by
    rw [balance, totalExpenses_overspend]; norm_num
  have h := C2_amended 100 overspendEntries
  have h0 := C2_amended 0 overspendEntries
  exact ⟨h.1 (by norm_num), h.2.1 (by norm_num) hb, h0.2.2.1 rfl,
    h.2.2.2.2 (by norm_num) hb⟩

-- C3 ---------------------------------------------------------------------------

/-- C3: riskBucket is a pure function of savingsRatePct alone, with fixed
half-open boundaries: every rate < 10 maps to Aggressive, every rate in [10, 25)
maps to Balanced, and every rate ≥ 25 maps to Conservative. -/
theorem C3_riskBucket (rate : ℚ) :
    (rate < 10 → riskBucket rate = "Aggressive") ∧
    (10 ≤ rate → rate < 25 → riskBucket rate = "Balanced") ∧
    (25 ≤ rate → riskBucket rate = "Conservative") := by
  refine ⟨fun h => ?_, fun h1 h2 => ?_, fun h => ?_⟩
  · rw [riskBucket, if_pos h]
  · rw [riskBucket, if_neg (not_lt.mpr h1), if_pos ⟨h1, h2⟩]
  · have h1 : ¬ rate < 10 := not_lt.mpr (by linarith)
    have h2 : ¬ (10 ≤ rate ∧ rate < 25) := fun hc => absurd h (not_le.mpr hc.2)
    rw [riskBucket, if_neg h1, if_neg h2]

/-- Witness for `C3_riskBucket` at the rates 5, 10, 24 and 25. -/
theorem C3_witness :
    riskBucket 5 = "Aggressive" ∧ riskBucket 10 = "Balanced" ∧
    riskBucket 24 = "Balanced" ∧ riskBucket 25 = "Conservative" :=
  ⟨(C3_riskBucket 5).1 (by norm_num),
   (C3_riskBucket 10).2.1 (by norm_num) (by norm_num),
   (C3_riskBucket 24).2.1 (by norm_num) (by norm_num),
   (C3_riskBucket 25).2.2 (by norm_num)⟩

-- C4 ---------------------------------------------------------------------------

/-- C4: The category list used for display is sorted strictly descending by
amount using a stable sort: for every expense list, entries with equal amounts
keep their original insertion order.  FALSE as stated for every expense list:
the display sorts the items of the category dict, not the entry list, so for
`[("A",5),("B",7),("A",5)]` the display is `[("B",7),("A",5)]` while a stable
descending sort of the entries would be `[("B",7),("A",5),("A",5)]` — the
repeated entry is merged away rather than kept in insertion order. -/
theorem C4_counterexample :
    sortedExpenses dupDisplayEntries = [("B", 7), ("A", 5)] ∧
    specStableSortDisplay dupDisplayEntries = [("B", 7), ("A", 5), ("A", 5)] ∧
    sortedExpenses dupDisplayEntries ≠ specStableSortDisplay dupDisplayEntries := by
  have h2 : sortedExpenses dupDisplayEntries = [("B", 7), ("A", 5)] := by rfl
  have h3 : specStableSortDisplay dupDisplayEntries = [("B", 7), ("A", 5), ("A", 5)] := by rfl
  refine ⟨h2, h3, ?_⟩
  rw [h2, h3]
  intro hc
  exact absurd (congrArg List.length hc) (by norm_num)

/-- C4 (amended): For every expense list whose categories are pairwise distinct,
the category list used for display is the stable descending-by-amount sort of
the entry list: it is sorted descending, ties keep their original insertion
order, and the spec example Rent/15000, Food/5000, Misc/5000 displays as
[Rent, Food, Misc]; with a repeated category the entries are first merged per
category (last amount wins) before sorting. -/
theorem C4_amended (entries : List ExpenseEntry)
    (hnd : (entries.map ExpenseEntry.category).Nodup) :
    sortedExpenses entries = specStableSortDisplay entries ∧
    List.Sorted byAmountDesc (sortedExpenses entries) ∧
    (∀ v : ℚ, (sortedExpenses entries).filter (fun q => decide (q.2 = v)) =
      (entries.map fun e => (e.category, e.amount)).filter (fun q => decide (q.2 = v))) ∧
    displayLabels exampleEntries = ["Rent", "Food", "Misc"] := by
  refine ⟨?_, List.sorted_insertionSort byAmountDesc _, fun v => ?_, ?_⟩
  · rw [sortedExpenses, specStableSortDisplay, expensesData_eq_map entries hnd]
  · rw [sortedExpenses, expensesData_eq_map entries hnd, insertionSort_filter_amount]
  · rfl

/-- Witness for `C4_amended` at the spec example list itself. -/
theorem C4_witness :
    sortedExpenses exampleEntries = specStableSortDisplay exampleEntries ∧
    displayLabels exampleEntries = ["Rent", "Food", "Misc"] :=
  ⟨(C4_amended exampleEntries (by decide)).1,
   (C4_amended exampleEntries (by decide)).2.2.2⟩

-- C5 ---------------------------------------------------------------------------

/-- C5: For every successfully parsed extraction response, the result is
filtered so that entries with a missing/blank category or amount ≤ 0 are dropped
and income defaults to 0 when absent; the spec example input with entries
Rent/15000, blank/500, Gift/0 yields income 50000 and the single entry
Rent/15000. -/
theorem C5_extraction_filter :
    (∀ it : RawEntry, keepEntry it = false ↔
        (it.category = none ∨ it.category = some "" ∨ it.amount.getD 0 ≤ 0)) ∧
    extractEntries exDoc.expenses = [⟨"Rent", 15000⟩] ∧
    (analyze_document_with_vision (fun _ => some exDoc) "resp" s0).1.income = 50000 ∧
    (analyze_document_with_vision (fun _ => some exDoc) "resp" s0).1.expense_entries
        = [⟨"Rent", 15000⟩] ∧
    (analyze_document_with_vision (fun _ => some (ParsedDoc.mk none [])) "resp" s0).1.income
        = 0 := by
  refine ⟨?_, by rfl, by rfl, by rfl, by rfl⟩
  intro it
  rcases it with ⟨cat, amt⟩
  cases cat with
  | none => simp [keepEntry]
  | some c =>
    by_cases hc : c = ""
    · subst hc; simp [keepEntry]
    · simp [keepEntry, hc, not_lt]

-- C6 ---------------------------------------------------------------------------

/-- C6: For every oracle response whose fence-stripped text is not valid JSON,
document extraction raises no exception to the caller (the model is a total
function), reports the recoverable retry message, and leaves all session state
(income, income_text, expense entries) exactly as it was before the call — no
partial state is committed. -/
theorem C6_parse_failure_preserves_state
    (jsonParse : String → Option ParsedDoc) (respText : String) (s : SessionState)
    (h : jsonParse (stripFences respText) = none) :
    analyze_document_with_vision jsonParse respText s = (s, ExtractOutcome.parseError) := by
  unfold analyze_document_with_vision
  rw [h]

/-- Witness for `C6_parse_failure_preserves_state` with a parser rejecting
everything. -/
theorem C6_witness :
    analyze_document_with_vision (fun _ => none) "this is not json" s1
      = (s1, ExtractOutcome.parseError) :=
  C6_parse_failure_preserves_state (fun _ => none) "this is not json" s1 rfl

-- C7 ---------------------------------------------------------------------------

/-- C7: For every successful extraction, the output is written only to the
editable draft used by the manual-entry form, and the committed Ledger (the
income and expense entries read by the dashboard and advisor) is unchanged until
the user explicitly saves.  FALSE: extraction writes the session income and
expense entries directly — the very fields the dashboard reads — so after a
successful extraction over the committed state s1 the dashboard income, entries
and balance have already changed with no save step. -/
theorem C7_counterexample :
    (analyze_document_with_vision (fun _ => some exDoc) "resp" s1).2
        = ExtractOutcome.success ∧
    (analyze_document_with_vision (fun _ => some exDoc) "resp" s1).1.income ≠ s1.income ∧
    (analyze_document_with_vision (fun _ => some exDoc) "resp" s1).1.expense_entries
        ≠ s1.expense_entries ∧
    home_balance (analyze_document_with_vision (fun _ => some exDoc) "resp" s1).1
        ≠ home_balance s1 := by
  refine ⟨rfl, ?_, ?_, ?_⟩
  · show (50000:ℚ) ≠ 10
    norm_num
  · show [(⟨"Rent", 15000⟩ : ExpenseEntry)] ≠ [⟨"Rent", 1⟩]
    intro hc
    norm_num [List.cons.injEq, ExpenseEntry.mk.injEq] at hc
  · show (50000:ℚ) - totalExpenses [⟨"Rent", 15000⟩] ≠ (10:ℚ) - totalExpenses [⟨"Rent", 1⟩]
    rw [totalExpenses_single, totalExpenses_single]
    norm_num

/-- C7 (amended): For every successful extraction, the parsed income and
filtered entries are written directly into the session fields income,
income_text and expense_entries; these same fields are at once the manual-entry
form prefill and the state read by the dashboard and the advisor, so the
extracted data is live there immediately, before any explicit save. -/
theorem C7_amended (jsonParse : String → Option ParsedDoc) (respText : String)
    (s : SessionState) (d : ParsedDoc)
    (h : jsonParse (stripFences respText) = some d) :
    (analyze_document_with_vision jsonParse respText s).1
        = ⟨d.income.getD 0, toString (d.income.getD 0), extractEntries d.expenses⟩ ∧
    home_balance (analyze_document_with_vision jsonParse respText s).1
        = d.income.getD 0 - totalExpenses (extractEntries d.expenses) ∧
    advisor_user_data (analyze_document_with_vision jsonParse respText s).1
        = "Income: " ++ toString (d.income.getD 0) ++ "\nExpenses: "
            ++ expenses_text (extractEntries d.expenses) := by
  unfold analyze_document_with_vision
  rw [h]
  exact ⟨rfl, rfl, rfl⟩

/-- Witness for `C7_amended` at the spec example document over the fresh
session. -/
theorem C7_witness :
    (analyze_document_with_vision (fun _ => some exDoc) "resp" s0).1
      = ⟨exDoc.income.getD 0, toString (exDoc.income.getD 0), extractEntries exDoc.expenses⟩ :=
  (C7_amended (fun _ => some exDoc) "resp" s0 exDoc rfl).1

-- C8 ---------------------------------------------------------------------------

/-- C8: For every user turn, the advisor call never propagates an exception: if
the oracle call fails for any reason, the returned value is a visible assistant
message containing the error text, so the user is always left with an appended
assistant response. -/
theorem C8_oracle_error_to_message
    (oracle : String → Except String String) (e : String)
    (s : SessionState) (chat_history : List ChatMsg) (last : ChatMsg)
    (hlast : chat_history.getLast? = some last)
    (hfail : ∀ p, oracle p = Except.error e) :
    page_advisor_step oracle s chat_history
        = chat_history ++ [⟨"assistant", "An error occurred: " ++ e⟩] ∧
    (page_advisor_step oracle s chat_history).length = chat_history.length + 1 ∧
    (page_advisor_step oracle s chat_history).getLast?
        = some ⟨"assistant", "An error occurred: " ++ e⟩ := by
  have hstep : page_advisor_step oracle s chat_history
      = chat_history ++ [⟨"assistant", "An error occurred: " ++ e⟩] := by
    unfold page_advisor_step
    rw [hlast]
    dsimp only
    unfold get_financial_advice
    rw [hfail]
  refine ⟨hstep, ?_, ?_⟩
  · rw [hstep]; simp
  · rw [hstep]; simp

/-- Witness for `C8_oracle_error_to_message` with an always-failing oracle. -/
theorem C8_witness :
    page_advisor_step (fun _ => Except.error "quota exceeded") s1 [⟨"user", "hi"⟩]
      = [⟨"user", "hi"⟩] ++ [⟨"assistant", "An error occurred: " ++ "quota exceeded"⟩] :=
  (C8_oracle_error_to_message (fun _ => Except.error "quota exceeded") "quota exceeded"
    s1 [⟨"user", "hi"⟩] ⟨"user", "hi"⟩ rfl (fun _ => rfl)).1

-- C9 ---------------------------------------------------------------------------

/-- C9: In the quiz state machine, next() is rejected (state unchanged) unless
an answer is recorded for the current question index, and when the index reaches
the number of questions the attempt becomes Completed with score = count of
indices i where answers[i] equals questions[i].correctOption; for the
two-question quiz with correct answers [A, B] and recorded answers 0 to A, 1 to
C, the score is 1. -/
theorem C9_quiz :
    (∀ (qs : List QuizQuestion) (s : QuizAttempt),
        s.radio s.current_question = none → nextQuestion qs s = s) ∧
    (∀ (qs : List QuizQuestion) (s : QuizAttempt),
        qs.length ≤ s.current_question →
        quizView qs s = QuizView.completed (score qs s.user_answers) qs.length) ∧
    score exQuiz exAnswers = 1 := by
  refine ⟨fun qs s h => ?_, fun qs s h => ?_, ?_⟩
  · unfold nextQuestion
    split
    · rw [h]
    · rfl
  · unfold quizView
    rw [if_pos h]
  · rfl

/-- Witness for `C9_quiz`: the fresh attempt (no choice selected) cannot
advance, and the completed-state view of the example quiz shows its score. -/
theorem C9_witness :
    nextQuestion exQuiz quizInit = quizInit ∧
    quizView exQuiz ⟨2, exAnswers, exAnswers⟩
      = QuizView.completed (score exQuiz exAnswers) exQuiz.length ∧
    score exQuiz exAnswers = 1 :=
  ⟨C9_quiz.1 exQuiz quizInit rfl,
   C9_quiz.2.1 exQuiz ⟨2, exAnswers, exAnswers⟩ (by decide),
   C9_quiz.2.2⟩

-- C10 --------------------------------------------------------------------------

/-- C10: In every attempt state reachable from the initial state (index 0,
empty answers) via the selectOption/next/previous transitions, the answers map
contains a recorded choice for every index strictly below the furthest index
reached; in particular, whenever the attempt is Completed (the current index
has reached the number of questions), every question index has a recorded
answer. -/
theorem C10_invariant (qs : List QuizQuestion) (s : QuizAttempt) (f : ℕ)
    (h : Reach qs s f) :
    (∀ i, i < f → ∃ c, s.user_answers i = some c) ∧
    (qs.length ≤ s.current_question →
      ∀ i, i < qs.length → ∃ c, s.user_answers i = some c) := by
  obtain ⟨hle, hans⟩ := reach_inv h
  have hex : ∀ i, i < f → ∃ c, s.user_answers i = some c := by
    intro i hi
    cases hx : s.user_answers i with
    | none => exact absurd hx (hans i hi)
    | some c => exact ⟨c, rfl⟩
  exact ⟨hex, fun hc i hi => hex i (lt_of_lt_of_le hi (le_trans hc hle))⟩

/-- Witness for `C10_invariant`: after selecting A and submitting it on the
example quiz, index 0 (the only index below the furthest index reached) has a
recorded answer. -/
theorem C10_witness :
    ∃ c, (nextQuestion exQuiz (selectOption exQuiz "A" quizInit)).user_answers 0 = some c := by
  have hreach : Reach exQuiz (nextQuestion exQuiz (selectOption exQuiz "A" quizInit))
      (max 0 (nextQuestion exQuiz (selectOption exQuiz "A" quizInit)).current_question) :=
    Reach.nxt (Reach.sel "A" Reach.init)
  exact (C10_invariant exQuiz _ _ hreach).1 0 (by decide)
